import Mathlib

/-!
Verification of `src/utils/apiResponseHandler.js`.

The file shallowly embeds the two classes of the source file,
`ApiResponseValidator` and `VuePressApiHandler`, over an untyped JavaScript
value model (`Value`).  JavaScript objects are association lists of string
keys; member access that can raise a `TypeError` (access on `null` or
`undefined`) is modelled with `Option`; plain objects inherit the members of
`Object.prototype` (a fixed finite approximation of the builtin environment,
enough for the `in` operator and property reads used by the source), and
arrays additionally inherit `Array.prototype` members.  The two sources of
ambient nondeterminism used by the source, `Date.now()` /
`new Date().toISOString()` and `Math.random()`, are made explicit parameters
(`now : Nat`, the current epoch millisecond, and `rand : String`, the random
suffix); `isoTimestamp` models `toISOString` as an injective encoding of the
millisecond, the exact text being immaterial.
-/

namespace ApiHandler

/-- Untyped JavaScript runtime values.  `builtin name` stands for the opaque
builtin function objects reached through prototype lookup (for example
`({}).toString`); the source never calls them, so they stay opaque. -/
inductive Value where
  | null
  | undef
  | bool (b : Bool)
  | num (n : Int)
  | str (s : String)
  | arr (elems : List Value)
  | obj (fields : List (String × Value))
  | builtin (name : String)

/-- JavaScript truthiness of a value. -/
def truthy : Value → Bool
  | .null => false
  | .undef => false
  | .bool b => b
  | .num n => n != 0
  | .str s => s != ""
  | .arr _ => true
  | .obj _ => true
  | .builtin _ => true

/-- Whether `typeof v === 'object'` holds (true for `null`, arrays and plain
objects; functions have `typeof` `'function'`). -/
def isObjectType : Value → Bool
  | .null => true
  | .arr _ => true
  | .obj _ => true
  | _ => false

/-- Strict equality with the `null` literal (`v === null`). -/
def isNull : Value → Bool
  | .null => true
  | _ => false

/-- Fixed approximation of the own property names of `Object.prototype`,
which every plain object literal inherits. -/
def objectProtoKeys : List String :=
  ["constructor", "hasOwnProperty", "isPrototypeOf", "propertyIsEnumerable",
   "toLocaleString", "toString", "valueOf"]

/-- Fixed approximation of the member names an array inherits
(`Array.prototype` members, then `Object.prototype`). -/
def arrayProtoKeys : List String :=
  ["at", "concat", "entries", "every", "fill", "filter", "find", "findIndex",
   "flat", "forEach", "includes", "indexOf", "join", "keys", "map", "pop",
   "push", "reduce", "reverse", "shift", "slice", "some", "sort", "splice",
   "unshift", "values"] ++ objectProtoKeys

/-- Accumulator pass of a decimal-numeral parse over the characters of a
key. -/
def parseNatGo : List Char → Nat → Option Nat
  | [], acc => some acc
  | c :: cs, acc =>
      if '0' ≤ c ∧ c ≤ '9' then parseNatGo cs (acc * 10 + (c.toNat - '0'.toNat))
      else none

/-- Decimal-numeral parse of a key (a structural stand-in for
`String.toNat?`, which does not reduce definitionally). -/
def parseNat (s : String) : Option Nat :=
  match s.data with
  | [] => none
  | l => parseNatGo l 0

/-- Canonical array index denoted by the string `k`, when `k` is the decimal
numeral of some `i < len` (JavaScript array index keys are canonical:
`"01"` is not an index). -/
def arrIndex (k : String) (len : Nat) : Option Nat :=
  match parseNat k with
  | some i => if k == toString i && decide (i < len) then some i else none
  | none => none

/-- First own entry of an association list under key `k`. -/
def getOwn : List (String × Value) → String → Option Value
  | [], _ => none
  | kv :: rest, k => if kv.1 == k then some kv.2 else getOwn rest k

/-- Models the JavaScript member read `v[k]`.  `none` models a raised
`TypeError` (member access on `null` or `undefined`); every other read
succeeds, falling through own entries to the prototype approximation and
finally to `undefined`. -/
def propGet : Value → String → Option Value
  | .null, _ => none
  | .undef, _ => none
  | .obj kvs, k =>
      some (match getOwn kvs k with
        | some w => w
        | none => if k ∈ objectProtoKeys then .builtin k else .undef)
  | .arr es, k =>
      some (match arrIndex k es.length with
        | some i => es.getD i .undef
        | none =>
            if k == "length" then .num es.length
            else if k ∈ arrayProtoKeys then .builtin k else .undef)
  | .str s, k =>
      some (if k == "length" then .num s.length
        else if k ∈ objectProtoKeys then .builtin k else .undef)
  | .num _, k => some (if k ∈ objectProtoKeys then .builtin k else .undef)
  | .bool _, k => some (if k ∈ objectProtoKeys then .builtin k else .undef)
  | .builtin _, k => some (if k ∈ objectProtoKeys then .builtin k else .undef)

/-- Member read `o[k]` at a point where the source guarantees it cannot
raise; on `null`/`undefined` it falls back to `undefined`. -/
def jsGet (o : Value) (k : String) : Value := (propGet o k).getD Value.undef

/-- The JavaScript `in` operator (`k in o`): own keys of the object or
array, array index keys and `length`, and inherited prototype members.
The source only evaluates it under a `typeof o === 'object'` guard, so the
non-object branches are unreachable there. -/
def jsIn (k : String) : Value → Bool
  | .obj kvs => kvs.any (fun kv => kv.1 == k) || decide (k ∈ objectProtoKeys)
  | .arr es =>
      (arrIndex k es.length).isSome || k == "length" || decide (k ∈ arrayProtoKeys)
  | _ => false

/-- Own-key membership (what `Object.hasOwnProperty` would test); used only
in theorem statements, not by the embedded source. -/
def hasOwnKey (o : Value) (k : String) : Bool :=
  match o with
  | .obj kvs => kvs.any (fun kv => kv.1 == k)
  | .arr es => (arrIndex k es.length).isSome || k == "length"
  | _ => false

/-- Accumulator pass of `splitPath`. -/
def splitPathGo (acc : String) : List Char → List String
  | [] => [acc]
  | c :: cs => if c = '.' then acc :: splitPathGo "" cs else splitPathGo (acc.push c) cs

/-- Models `path.split('.')` of JavaScript: `""` yields `[""]`, separators
at the ends yield empty segments (a structural stand-in for
`String.splitOn`, which does not reduce definitionally). -/
def splitPath (path : String) : List String :=
  splitPathGo "" path.data

/-- Loop body of `ApiResponseValidator.hasNestedProperty` (source lines
107-120) over the already split path: each step requires
`current && typeof current === 'object' && key in current`, then steps with
`current = current[key]` (non-faulting under the guard, hence `jsGet`). -/
def hasNestedPropertyGo : List String → Value → Bool
  | [], _ => true
  | key :: rest, current =>
      if truthy current && isObjectType current && jsIn key current then
        hasNestedPropertyGo rest (jsGet current key)
      else false

/-- `ApiResponseValidator.hasNestedProperty(obj, path)` (source lines
107-120). -/
def hasNestedProperty (o : Value) (path : String) : Bool :=
  hasNestedPropertyGo (splitPath path) o

/-- Loop body of `ApiResponseValidator.getNestedProperty` (source lines
128-137): `current = current[key]` without any guard, so a read on
`null`/`undefined` faults and the fault propagates. -/
def getNestedPropertyGo : List String → Value → Option Value
  | [], current => some current
  | key :: rest, current => (propGet current key).bind (fun v => getNestedPropertyGo rest v)

/-- `ApiResponseValidator.getNestedProperty(obj, path)` (source lines
128-137); `none` models a raised `TypeError`. -/
def getNestedProperty (o : Value) (path : String) : Option Value :=
  getNestedPropertyGo (splitPath path) o

/-- Result of the property read `this.fieldMappings[fieldName]` (source line
90): an own entry of the mappings table (a list of candidate keys), an
inherited `Object.prototype` member (a function value), or `undefined`. -/
inductive MappingVal where
  | entry (ks : List String)
  | protoFn (name : String)
  | undef

/-- Reads `fieldMappings[fieldName]`, with the mappings table itself a plain
object literal, so names like `"toString"` resolve to inherited members. -/
def mappingsGet (m : List (String × List String)) (fieldName : String) : MappingVal :=
  match m.find? (fun p => p.1 == fieldName) with
  | some p => MappingVal.entry p.2
  | none =>
      if fieldName ∈ objectProtoKeys then MappingVal.protoFn fieldName
      else MappingVal.undef

/-- The field-variant mapping table built in the constructor (source lines
12-20). -/
def defaultFieldMappings : List (String × List String) :=
  [("content", ["content", "text", "message", "response", "result"]),
   ("id", ["id", "messageId", "requestId", "uuid"]),
   ("timestamp", ["timestamp", "created_at", "time", "date"]),
   ("model", ["model", "model_name", "modelName", "version"]),
   ("usage", ["usage", "token_usage", "tokenUsage", "consumption"]),
   ("error", ["error", "error_message", "errorMessage", "message"])]

/-- `ApiResponseValidator.generateFallbackId` (source lines 36-38):
`fallback-` + `Date.now()` + `-` + a random base-36 suffix; `now` and `rand`
make the two ambient sources explicit. -/
def generateFallbackId (now : Nat) (rand : String) : String :=
  "fallback-" ++ toString now ++ "-" ++ rand

/-- Models `new Date().toISOString()` at epoch millisecond `ms` as an
injective encoding of `ms`; the exact text is immaterial to the claims. -/
def isoTimestamp (ms : Nat) : String :=
  "iso-" ++ toString ms

/-- Instance state of `ApiResponseValidator`: the (runtime mutable) synonym
table and the default-value table fixed by the constructor. -/
structure ApiResponseValidator where
  fieldMappings : List (String × List String)
  defaultValues : List (String × Value)

/-- The constructor (source lines 10-31), run at instant `now` with random
suffix `rand`: note that `defaultValues.id` calls `generateFallbackId()`
once, here, and `defaultValues.timestamp` captures the construction
instant. -/
def mkValidator (now : Nat) (rand : String) : ApiResponseValidator :=
  { fieldMappings := defaultFieldMappings,
    defaultValues :=
      [("content", Value.str ""),
       ("id", Value.str (generateFallbackId now rand)),
       ("timestamp", Value.str (isoTimestamp now)),
       ("model", Value.str "unknown-model"),
       ("usage", Value.obj [("total_tokens", Value.num 0)]),
       ("error", Value.null)] }

/-- The candidate key list of `extractField`
(`this.fieldMappings[fieldName] || [fieldName]`), on names whose lookup
does not produce an inherited function. -/
def possibleKeysOf (v : ApiResponseValidator) (fieldName : String) : List String :=
  match mappingsGet v.fieldMappings fieldName with
  | MappingVal.entry ks => ks
  | _ => [fieldName]

/-- Loop of `ApiResponseValidator.extractField` (source lines 92-96) over
the candidate key list: the first candidate passing `hasNestedProperty`
wins and its `getNestedProperty` value is returned; exhaustion returns the
JavaScript `null` value. -/
def extractFieldGo (response : Value) : List String → Option Value
  | [] => some Value.null
  | key :: rest =>
      if hasNestedProperty response key then getNestedProperty response key
      else extractFieldGo response rest

/-- `ApiResponseValidator.extractField(response, fieldName)` (source lines
89-99).  `this.fieldMappings[fieldName] || [fieldName]` keeps an own entry
(arrays are truthy), replaces `undefined` by `[fieldName]`, and for a name
colliding with an inherited `Object.prototype` member yields that (truthy)
function, over which the `for...of` loop then raises a `TypeError`
(modelled by `none`). -/
def extractField (v : ApiResponseValidator) (response : Value) (fieldName : String) :
    Option Value :=
  match mappingsGet v.fieldMappings fieldName with
  | MappingVal.protoFn _ => none
  | MappingVal.entry ks => extractFieldGo response ks
  | MappingVal.undef => extractFieldGo response [fieldName]

/-- The value produced by a non-faulting `extractField` call; the callers
inside `validateAndNormalize` are used only on field names for which
`extractField` cannot fault (see the safety theorems below). -/
def extractFieldVal (v : ApiResponseValidator) (response : Value) (fieldName : String) :
    Value :=
  (extractField v response fieldName).getD Value.undef

/-- Reads `this.defaultValues[field]` (a plain-object property read). -/
def defaultsGet (v : ApiResponseValidator) (f : String) : Value :=
  match getOwn v.defaultValues f with
  | some w => w
  | none => if f ∈ objectProtoKeys then Value.builtin f else Value.undef

/-- Assignment into an association list: an existing key keeps its position
and receives the new value, a fresh key is appended (JavaScript insertion
order). -/
def setKV : List (String × Value) → String → Value → List (String × Value)
  | [], k, v => [(k, v)]
  | kv :: rest, k, v => if kv.1 == k then (kv.1, v) :: rest else kv :: setKV rest k v

/-- The member write `o[k] = v` on an object. -/
def objSet (o : Value) (k : String) (v : Value) : Value :=
  match o with
  | .obj kvs => .obj (setKV kvs k v)
  | _ => o

/-- Entry-wise action of an in-place update under key `k`. -/
def updEntry (k : String) (f : Value → Value) (kv : String × Value) : String × Value :=
  if kv.1 == k then (kv.1, f kv.2) else kv

/-- In-place update of the value stored under an own key (used to model a
mutation reached through a member path). -/
def objUpdate (o : Value) (k : String) (f : Value → Value) : Value :=
  match o with
  | .obj kvs => .obj (kvs.map (updEntry k f))
  | _ => o

/-- `Array.prototype.push` on the embedded array value. -/
def arrPush (o : Value) (x : Value) : Value :=
  match o with
  | .arr es => .arr (es ++ [x])
  | _ => o

/-- `normalizedResponse._validation.issues.push(msg)` (source line 67): the
mutation of the `issues` array reached through `_validation`. -/
def pushIssue (o : Value) (msg : String) : Value :=
  objUpdate o "_validation" (fun w => objUpdate w "issues" (fun x => arrPush x (Value.str msg)))

/-- The apology text of the fallback response (source line 145). -/
def apologyText : String := "抱歉，API响应处理出现问题，请稍后重试。"

/-- `ApiResponseValidator.createFallbackResponse()` (source lines 143-156),
called at instant `now` with random suffix `rand`: a complete canonical
record; note it carries no `_original` field. -/
def createFallbackResponse (now : Nat) (rand : String) : Value :=
  Value.obj
    [("content", Value.str apologyText),
     ("id", Value.str (generateFallbackId now rand)),
     ("timestamp", Value.str (isoTimestamp now)),
     ("model", Value.str "fallback-model"),
     ("usage", Value.obj [("total_tokens", Value.num 0)]),
     ("error", Value.str "API compatibility issue detected"),
     ("_validation",
        Value.obj [("timestamp", Value.str (isoTimestamp now)),
                   ("issues", Value.arr [Value.str "Complete fallback response generated"])])]

/-- One iteration of the required-field loop (source lines 61-69): extract;
a value other than literal `null` is stored, otherwise the default is
stored and `"Missing field: <field>"` is pushed onto
`_validation.issues`. -/
def requiredStep (v : ApiResponseValidator) (response : Value) (acc : Value)
    (field : String) : Value :=
  let value := extractFieldVal v response field
  if !isNull value then objSet acc field value
  else pushIssue (objSet acc field (defaultsGet v field)) ("Missing field: " ++ field)

/-- One iteration of the optional-field loop (source lines 73-77): only a
field whose current value is falsy is (re)filled, from extraction or
silently from the default. -/
def optionalStep (v : ApiResponseValidator) (response : Value) (acc : Value)
    (field : String) : Value :=
  if truthy (jsGet acc field) then acc
  else
    let value := extractFieldVal v response field
    objSet acc field (if !isNull value then value else defaultsGet v field)

/-- The fixed optional field list (source line 72). -/
def optionalFields : List String := ["id", "timestamp", "model", "usage", "error"]

/-- `ApiResponseValidator.validateAndNormalize(response, requiredFields)`
(source lines 46-81) at instant `now` (with `rand` feeding the fallback id
of the guard path): a falsy or non-`'object'` input short-circuits to
`createFallbackResponse()`; otherwise the record seeded with `_original`
and `_validation` runs the required pass then the optional pass. -/
def validateAndNormalize (v : ApiResponseValidator) (now : Nat) (rand : String)
    (response : Value) (requiredFields : List String) : Value :=
  if !truthy response || !isObjectType response then
    createFallbackResponse now rand
  else
    let init : Value :=
      Value.obj
        [("_original", response),
         ("_validation",
            Value.obj [("timestamp", Value.str (isoTimestamp now)),
                       ("issues", Value.arr [])])]
    let afterRequired := requiredFields.foldl (requiredStep v response) init
    optionalFields.foldl (optionalStep v response) afterRequired

/-- The `options` record of `VuePressApiHandler.handleApiResponse` (source
lines 176-180) with its defaults.  `enableLogging` gates console output
only and `enableFallback` only matters on a raised fault, which cannot
occur on the inputs covered by the theorems below. -/
structure HandlerOptions where
  requiredFields : List String := ["content"]
  enableLogging : Bool := true
  enableFallback : Bool := true

/-- Instance state of `VuePressApiHandler` (source lines 163-167). -/
structure VuePressApiHandler where
  validator : ApiResponseValidator
  errorCount : Nat
  maxErrors : Nat

/-- The `VuePressApiHandler` constructor (source lines 163-167), run at
instant `cnow` with random suffix `crand` (feeding the inner validator's
constructor). -/
def mkHandler (cnow : Nat) (crand : String) : VuePressApiHandler :=
  { validator := mkValidator cnow crand, errorCount := 0, maxErrors := 5 }

/-- The list read by `normalizedResponse._validation.issues` on a
normalization result. -/
def issuesOf (o : Value) : List Value :=
  match jsGet (jsGet o "_validation") "issues" with
  | .arr es => es
  | _ => []

/-- The value stored under `_original` in a normalization result. -/
def originalOf (o : Value) : Value := jsGet o "_original"

/-- The value stored under `_validation.timestamp` in a normalization
result. -/
def vTimestampOf (o : Value) : Value := jsGet (jsGet o "_validation") "timestamp"

/-- `VuePressApiHandler.handleApiResponse(apiResponse, options)` (source
lines 175-218) at instant `now`: normalizes, then increments `errorCount`
when the issue list is non-empty and resets it to `0` otherwise; the
normalized record is returned together with the updated handler state.
The `try`/`catch` is not modelled: on the field lists covered by the
theorems below the normalization cannot raise. -/
def handleApiResponse (h : VuePressApiHandler) (now : Nat) (rand : String)
    (apiResponse : Value) (opts : HandlerOptions) : Value × VuePressApiHandler :=
  let normalizedResponse :=
    validateAndNormalize h.validator now rand apiResponse opts.requiredFields
  if (issuesOf normalizedResponse).length > 0 then
    (normalizedResponse, { h with errorCount := h.errorCount + 1 })
  else
    (normalizedResponse, { h with errorCount := 0 })

/-- `VuePressApiHandler.getRecommendations()` (source lines 261-275). -/
def getRecommendations (h : VuePressApiHandler) : List Value :=
  (if h.errorCount > 0 then
     [Value.str "检查API响应格式是否发生变化", Value.str "考虑更新字段映射配置"]
   else []) ++
  (if h.errorCount > h.maxErrors then
     [Value.str "建议联系API提供方确认版本兼容性", Value.str "考虑实施API版本检测机制"]
   else [])

/-- `VuePressApiHandler.generateErrorReport()` (source lines 247-255) at
instant `now`. -/
def generateErrorReport (h : VuePressApiHandler) (now : Nat) : Value :=
  Value.obj
    [("timestamp", Value.str (isoTimestamp now)),
     ("errorCount", Value.num h.errorCount),
     ("maxErrors", Value.num h.maxErrors),
     ("status", Value.str (if h.errorCount > h.maxErrors then "critical" else "normal")),
     ("recommendations", Value.arr (getRecommendations h))]

/-- Invariant carried by the record under construction inside
`validateAndNormalize`: it is an object whose `_original` entry still holds
the raw input and whose `_validation` entry is the seeded sub-record with
the issue list accumulated so far. -/
def GoodShape (response : Value) (now : Nat) (o : Value) (issues : List Value) : Prop :=
  (∃ kvs, o = Value.obj kvs) ∧
  jsGet o "_original" = response ∧
  jsGet o "_validation"
    = Value.obj [("timestamp", Value.str (isoTimestamp now)), ("issues", Value.arr issues)]

/-- The issue strings recorded by the required pass: one
`"Missing field: <f>"` per required field whose extraction came back as the
`null` value. -/
def requiredIssues (v : ApiResponseValidator) (response : Value) (req : List String) :
    List Value :=
  (req.filter (fun f => isNull (extractFieldVal v response f))).map
    (fun f => Value.str ("Missing field: " ++ f))

/-- Side condition under which the candidate-list lookup
`this.fieldMappings[fieldName]` cannot come back as an inherited function
value: the name either misses `Object.prototype` or has an own entry
registered in the table. -/
def noProtoClash (v : ApiResponseValidator) (f : String) : Prop :=
  f ∉ objectProtoKeys ∨ (v.fieldMappings.find? (fun p => p.1 == f)).isSome = true

/-- Declarative reading of dot-path presence as the source implements it:
each step requires a truthy value of `typeof` `'object'` for which the `in`
operator (own keys or inherited prototype members) finds the next
segment. -/
inductive PathPresent : Value → List String → Prop where
  | nil (v : Value) : PathPresent v []
  | cons (v : Value) (key : String) (rest : List String) :
      truthy v = true → isObjectType v = true → jsIn key v = true →
      PathPresent (jsGet v key) rest → PathPresent v (key :: rest)

/-- A concrete validator instance, constructed at instant `0` with random
suffix `"c"`. -/
def sampleValidator : ApiResponseValidator := mkValidator 0 "c"

/-- A concrete handler instance, constructed at instant `0` with random
suffix `"c"`. -/
def sampleHandler : VuePressApiHandler := mkHandler 0 "c"

/-! ### Library of lemmas about the object model -/

lemma getOwn_setKV_self (kvs : List (String × Value)) (k : String) (v : Value) :
    getOwn (setKV kvs k v) k = some v := by
  induction kvs with
  | nil => simp [setKV, getOwn]
  | cons kv rest ih =>
      simp only [setKV]
      by_cases h : kv.1 == k
      · simp [getOwn, h]
      · simp [getOwn, h, ih]

lemma getOwn_setKV_ne (kvs : List (String × Value)) (k k' : String) (v : Value)
    (h : k' ≠ k) : getOwn (setKV kvs k v) k' = getOwn kvs k' := by
  have hk : (k == k') = false := by simp [Ne.symm h]
  induction kvs with
  | nil => simp [setKV, getOwn, hk]
  | cons kv rest ih =>
      simp only [setKV]
      by_cases hh : kv.1 == k
      · have : kv.1 = k := by simpa using hh
        simp [getOwn, hh, this, hk]
      · simp [getOwn, hh, ih]

lemma jsGet_obj (kvs : List (String × Value)) (k : String) :
    jsGet (Value.obj kvs) k =
      (match getOwn kvs k with
       | some w => w
       | none => if k ∈ objectProtoKeys then Value.builtin k else Value.undef) := rfl

lemma jsGet_objSet_self (kvs : List (String × Value)) (k : String) (v : Value) :
    jsGet (objSet (Value.obj kvs) k v) k = v := by
  simp [objSet, jsGet_obj, getOwn_setKV_self]

lemma jsGet_objSet_ne (kvs : List (String × Value)) (k k' : String) (v : Value)
    (h : k' ≠ k) : jsGet (objSet (Value.obj kvs) k v) k' = jsGet (Value.obj kvs) k' := by
  simp [objSet, jsGet_obj, getOwn_setKV_ne _ _ _ _ h]

lemma updEntry_pos (k : String) (f : Value → Value) (kv : String × Value)
    (h : (kv.1 == k) = true) : updEntry k f kv = (kv.1, f kv.2) := by
  simp [updEntry, h]

lemma updEntry_neg (k : String) (f : Value → Value) (kv : String × Value)
    (h : (kv.1 == k) = false) : updEntry k f kv = kv := by
  simp [updEntry, h]

lemma getOwn_mapUpdate_self (kvs : List (String × Value)) (k : String)
    (f : Value → Value) (w : Value) (h : getOwn kvs k = some w) :
    getOwn (kvs.map (updEntry k f)) k = some (f w) := by
  induction kvs with
  | nil => simp [getOwn] at h
  | cons kv rest ih =>
      rw [List.map_cons]
      by_cases hh : (kv.1 == k) = true
      · rw [updEntry_pos _ _ _ hh]
        simp only [getOwn, hh, if_true] at h ⊢
        simp only [Option.some.injEq] at h
        rw [h]
      · have hh' : (kv.1 == k) = false := by simpa using hh
        rw [updEntry_neg _ _ _ hh']
        simp only [getOwn, hh', if_false, Bool.false_eq_true] at h ⊢
        exact ih h

lemma getOwn_mapUpdate_ne (kvs : List (String × Value)) (k k' : String)
    (f : Value → Value) (h : k' ≠ k) :
    getOwn (kvs.map (updEntry k f)) k' = getOwn kvs k' := by
  induction kvs with
  | nil => simp [getOwn]
  | cons kv rest ih =>
      rw [List.map_cons]
      by_cases hh : (kv.1 == k) = true
      · have hkk : kv.1 = k := by simpa using hh
        have h2 : (kv.1 == k') = false := by simp [hkk, Ne.symm h]
        rw [updEntry_pos _ _ _ hh]
        simp only [getOwn, h2, if_false, Bool.false_eq_true]
        exact ih
      · have hh' : (kv.1 == k) = false := by simpa using hh
        rw [updEntry_neg _ _ _ hh']
        by_cases h2 : (kv.1 == k') = true
        · simp only [getOwn, h2, if_true]
        · have h2' : (kv.1 == k') = false := by simpa using h2
          simp only [getOwn, h2', if_false, Bool.false_eq_true]
          exact ih

lemma getOwn_of_jsGet_obj (kvs : List (String × Value)) (k : String)
    (w : List (String × Value)) (h : jsGet (Value.obj kvs) k = Value.obj w) :
    getOwn kvs k = some (Value.obj w) := by
  rw [jsGet_obj] at h
  cases hfind : getOwn kvs k with
  | some u => simp only [hfind] at h; rw [h]
  | none =>
      simp only [hfind] at h
      by_cases hk : k ∈ objectProtoKeys <;> simp [hk] at h

lemma jsGet_pushIssue_ne (kvs : List (String × Value)) (k : String) (msg : String)
    (h : k ≠ "_validation") :
    jsGet (pushIssue (Value.obj kvs) msg) k = jsGet (Value.obj kvs) k := by
  simp only [pushIssue, objUpdate, jsGet_obj]
  rw [getOwn_mapUpdate_ne _ _ _ _ h]

lemma jsGet_pushIssue_validation (kvs : List (String × Value)) (msg : String)
    (ts : Value) (is : List Value)
    (h : jsGet (Value.obj kvs) "_validation"
          = Value.obj [("timestamp", ts), ("issues", Value.arr is)]) :
    jsGet (pushIssue (Value.obj kvs) msg) "_validation"
      = Value.obj [("timestamp", ts), ("issues", Value.arr (is ++ [Value.str msg]))] := by
  have hown := getOwn_of_jsGet_obj _ _ _ h
  simp only [pushIssue, objUpdate, jsGet_obj]
  rw [getOwn_mapUpdate_self _ _ _ _ hown]
  simp [arrPush, updEntry]

lemma jsGet_vld_issues (ts w : Value) :
    jsGet (Value.obj [("timestamp", ts), ("issues", w)]) "issues" = w := rfl

lemma jsGet_vld_timestamp (ts w : Value) :
    jsGet (Value.obj [("timestamp", ts), ("issues", w)]) "timestamp" = ts := rfl

/-! ### Shape invariant of the normalization passes -/

lemma goodShape_objSet (response : Value) (now : Nat) (o : Value) (issues : List Value)
    (k : String) (v : Value) (h1 : k ≠ "_original") (h2 : k ≠ "_validation")
    (hg : GoodShape response now o issues) :
    GoodShape response now (objSet o k v) issues := by
  obtain ⟨⟨kvs, rfl⟩, horig, hval⟩ := hg
  refine ⟨⟨setKV kvs k v, rfl⟩, ?_, ?_⟩
  · rw [show objSet (Value.obj kvs) k v = Value.obj (setKV kvs k v) from rfl]
    rw [show Value.obj (setKV kvs k v) = objSet (Value.obj kvs) k v from rfl,
      jsGet_objSet_ne _ _ _ _ (Ne.symm h1)]
    exact horig
  · rw [show objSet (Value.obj kvs) k v = Value.obj (setKV kvs k v) from rfl]
    rw [show Value.obj (setKV kvs k v) = objSet (Value.obj kvs) k v from rfl,
      jsGet_objSet_ne _ _ _ _ (Ne.symm h2)]
    exact hval

lemma goodShape_pushIssue (response : Value) (now : Nat) (o : Value) (issues : List Value)
    (msg : String) (hg : GoodShape response now o issues) :
    GoodShape response now (pushIssue o msg) (issues ++ [Value.str msg]) := by
  obtain ⟨⟨kvs, rfl⟩, horig, hval⟩ := hg
  refine ⟨⟨_, rfl⟩, ?_, ?_⟩
  · rw [jsGet_pushIssue_ne _ _ _ (by decide)]
    exact horig
  · exact jsGet_pushIssue_validation _ _ _ _ hval

lemma goodShape_requiredStep (v : ApiResponseValidator) (response : Value) (now : Nat)
    (acc : Value) (issues : List Value) (field : String)
    (h1 : field ≠ "_original") (h2 : field ≠ "_validation")
    (hg : GoodShape response now acc issues) :
    GoodShape response now (requiredStep v response acc field)
      (issues ++ (if isNull (extractFieldVal v response field) then
                    [Value.str ("Missing field: " ++ field)] else [])) := by
  rw [requiredStep]
  cases hn : isNull (extractFieldVal v response field) with
  | false =>
      simp only [hn, Bool.not_false, Bool.false_eq_true, if_true, if_false,
        List.append_nil]
      exact goodShape_objSet _ _ _ _ _ _ h1 h2 hg
  | true =>
      simp only [hn, Bool.not_true, Bool.false_eq_true, if_true, if_false]
      exact goodShape_pushIssue _ _ _ _ _ (goodShape_objSet _ _ _ _ _ _ h1 h2 hg)

lemma goodShape_optionalStep (v : ApiResponseValidator) (response : Value) (now : Nat)
    (acc : Value) (issues : List Value) (field : String)
    (h1 : field ≠ "_original") (h2 : field ≠ "_validation")
    (hg : GoodShape response now acc issues) :
    GoodShape response now (optionalStep v response acc field) issues := by
  rw [optionalStep]
  by_cases ht : truthy (jsGet acc field) = true
  · rw [if_pos ht]; exact hg
  · rw [if_neg ht]; exact goodShape_objSet _ _ _ _ _ _ h1 h2 hg

lemma requiredIssues_cons (v : ApiResponseValidator) (response : Value) (f : String)
    (rest : List String) :
    requiredIssues v response (f :: rest)
      = (if isNull (extractFieldVal v response f) then
           [Value.str ("Missing field: " ++ f)] else [])
        ++ requiredIssues v response rest := by
  rw [requiredIssues, List.filter_cons]
  cases hn : isNull (extractFieldVal v response f) <;> simp [hn, requiredIssues]

lemma goodShape_foldl_required (v : ApiResponseValidator) (response : Value) (now : Nat) :
    ∀ (req : List String) (acc : Value) (issues : List Value),
      "_original" ∉ req → "_validation" ∉ req →
      GoodShape response now acc issues →
      GoodShape response now (req.foldl (requiredStep v response) acc)
        (issues ++ requiredIssues v response req)
  | [], acc, issues, _, _, hg => by simpa [requiredIssues] using hg
  | f :: rest, acc, issues, ho, hv, hg => by
      rw [List.mem_cons, not_or] at ho hv
      have hstep := goodShape_requiredStep v response now acc issues f
        (Ne.symm ho.1) (Ne.symm hv.1) hg
      have hrest := goodShape_foldl_required v response now rest _ _ ho.2 hv.2 hstep
      rw [List.foldl_cons, requiredIssues_cons, ← List.append_assoc]
      exact hrest

lemma goodShape_foldl_optional (v : ApiResponseValidator) (response : Value) (now : Nat) :
    ∀ (fs : List String) (acc : Value) (issues : List Value),
      "_original" ∉ fs → "_validation" ∉ fs →
      GoodShape response now acc issues →
      GoodShape response now (fs.foldl (optionalStep v response) acc) issues
  | [], _, _, _, _, hg => hg
  | f :: rest, acc, issues, ho, hv, hg => by
      rw [List.mem_cons, not_or] at ho hv
      have hstep := goodShape_optionalStep v response now acc issues f
        (Ne.symm ho.1) (Ne.symm hv.1) hg
      have hrest := goodShape_foldl_optional v response now rest _ _ ho.2 hv.2 hstep
      rw [List.foldl_cons]
      exact hrest

/-- Structure of every non-guard result of `validateAndNormalize`: an
object that still holds the raw input under `_original`, the normalization
instant under `_validation.timestamp`, and exactly the required-pass issue
strings under `_validation.issues`. -/
lemma validateAndNormalize_goodShape (v : ApiResponseValidator) (now : Nat) (rand : String)
    (response : Value) (req : List String)
    (h1 : truthy response = true) (h2 : isObjectType response = true)
    (ho : "_original" ∉ req) (hv : "_validation" ∉ req) :
    GoodShape response now (validateAndNormalize v now rand response req)
      (requiredIssues v response req) := by
  rw [validateAndNormalize, h1, h2]
  simp only [Bool.not_true, Bool.or_self, Bool.false_eq_true, if_false]
  have hinit : GoodShape response now
      (Value.obj
        [("_original", response),
         ("_validation",
            Value.obj [("timestamp", Value.str (isoTimestamp now)),
                       ("issues", Value.arr [])])]) [] := by
    exact ⟨⟨_, rfl⟩, rfl, rfl⟩
  have h3 := goodShape_foldl_required v response now req _ _ ho hv hinit
  rw [List.nil_append] at h3
  exact goodShape_foldl_optional v response now optionalFields _ _
    (by decide) (by decide) h3

lemma issuesOf_of_goodShape (response : Value) (now : Nat) (o : Value)
    (issues : List Value) (hg : GoodShape response now o issues) :
    issuesOf o = issues := by
  rw [issuesOf, hg.2.2, jsGet_vld_issues]

lemma originalOf_of_goodShape (response : Value) (now : Nat) (o : Value)
    (issues : List Value) (hg : GoodShape response now o issues) :
    originalOf o = response := hg.2.1

lemma vTimestampOf_of_goodShape (response : Value) (now : Nat) (o : Value)
    (issues : List Value) (hg : GoodShape response now o issues) :
    vTimestampOf o = Value.str (isoTimestamp now) := by
  rw [vTimestampOf, hg.2.2, jsGet_vld_timestamp]

/-! ### Safety and characterization of field extraction -/

lemma propGet_of_guard (cur : Value) (k : String)
    (h1 : truthy cur = true) (h2 : isObjectType cur = true) :
    propGet cur k = some (jsGet cur k) := by
  cases cur <;> simp_all [truthy, isObjectType, propGet, jsGet]

lemma getNestedGo_isSome_of_hasGo :
    ∀ (ks : List String) (cur : Value), hasNestedPropertyGo ks cur = true →
      (getNestedPropertyGo ks cur).isSome = true
  | [], _, _ => rfl
  | k :: rest, cur, h => by
      rw [hasNestedPropertyGo] at h
      by_cases hg : (truthy cur && isObjectType cur && jsIn k cur) = true
      · rw [if_pos hg] at h
        simp only [Bool.and_eq_true] at hg
        rw [getNestedPropertyGo, propGet_of_guard cur k hg.1.1 hg.1.2]
        exact getNestedGo_isSome_of_hasGo rest (jsGet cur k) h
      · rw [if_neg hg] at h
        exact absurd h (by simp)

/-- Safety of the unguarded traversal: whenever `hasNestedProperty` holds,
`getNestedProperty` cannot raise. -/
lemma getNestedProperty_isSome (o : Value) (path : String)
    (h : hasNestedProperty o path = true) : (getNestedProperty o path).isSome = true :=
  getNestedGo_isSome_of_hasGo _ _ h

lemma extractFieldGo_isSome (response : Value) :
    ∀ ks : List String, (extractFieldGo response ks).isSome = true
  | [] => rfl
  | k :: rest => by
      rw [extractFieldGo]
      by_cases h : hasNestedProperty response k = true
      · rw [if_pos h]; exact getNestedProperty_isSome _ _ h
      · rw [if_neg h]; exact extractFieldGo_isSome response rest

lemma mappingsGet_ne_protoFn (v : ApiResponseValidator) (f : String)
    (h : noProtoClash v f) (n : String) :
    mappingsGet v.fieldMappings f ≠ MappingVal.protoFn n := by
  intro hm
  rw [mappingsGet] at hm
  cases hfind : v.fieldMappings.find? (fun p => p.1 == f) with
  | some p => rw [hfind] at hm; exact MappingVal.noConfusion hm
  | none =>
      rw [hfind] at hm
      rcases h with h | h
      · rw [if_neg h] at hm; exact MappingVal.noConfusion hm
      · rw [hfind] at h; exact absurd h (by simp)

lemma extractField_eq_go (v : ApiResponseValidator) (response : Value) (f : String)
    (h : noProtoClash v f) :
    extractField v response f = extractFieldGo response (possibleKeysOf v f) := by
  rw [extractField, possibleKeysOf]
  cases hm : mappingsGet v.fieldMappings f with
  | entry ks => rfl
  | undef => rfl
  | protoFn n => exact absurd hm (mappingsGet_ne_protoFn v f h n)

lemma extractField_isSome (v : ApiResponseValidator) (response : Value) (f : String)
    (h : noProtoClash v f) : (extractField v response f).isSome = true := by
  rw [extractField_eq_go v response f h]
  exact extractFieldGo_isSome response _

lemma extractFieldGo_eq_null (response : Value) :
    ∀ ks : List String, (∀ k ∈ ks, hasNestedProperty response k = false) →
      extractFieldGo response ks = some Value.null
  | [], _ => rfl
  | k :: rest, h => by
      rw [extractFieldGo]
      have hk : hasNestedProperty response k = false := h k (List.mem_cons_self k rest)
      rw [if_neg (by simp [hk])]
      exact extractFieldGo_eq_null response rest
        (fun k' hk' => h k' (List.mem_cons_of_mem _ hk'))

/-- First-match characterization of the candidate loop: the value of the
first candidate that passes `hasNestedProperty`, else the `null` value. -/
lemma extractFieldGo_eq_find (response : Value) :
    ∀ ks : List String,
      extractFieldGo response ks
        = (ks.find? (fun k => hasNestedProperty response k)).elim (some Value.null)
            (fun k => getNestedProperty response k)
  | [] => rfl
  | k :: rest => by
      rw [extractFieldGo, List.find?_cons]
      cases h : hasNestedProperty response k with
      | true => simp
      | false => simpa using extractFieldGo_eq_find response rest

/-! ### Claim theorems -/

/-- C1, counterexample: the claim fails on the fifth listed input `[]`.  An
empty array passes the `typeof === 'object'` guard of
`validateAndNormalize`, so `handleApiResponse` on `[]` with default options
returns a normalized record whose `content` is the empty-string default
(not the apology text) and whose `error` is `null` (not non-null). -/
theorem c1_counterexample :
    jsGet (handleApiResponse sampleHandler 1 "r" (Value.arr []) {}).1 "content"
        = Value.str ""
      ∧ jsGet (handleApiResponse sampleHandler 1 "r" (Value.arr []) {}).1 "error"
        = Value.null := ⟨rfl, rfl⟩

/-- C1 (amended): for the inputs `null`, `undefined`, `""` and `123` (but
not `[]`), `handleApiResponse` with default options returns the complete
fallback record: `content` is the apology text and `error` is the non-null
string `"API compatibility issue detected"`. -/
theorem c1_theorem (h : VuePressApiHandler) (now : Nat) (rand : String) (x : Value)
    (hx : x ∈ [Value.null, Value.undef, Value.str "", Value.num 123]) :
    jsGet (handleApiResponse h now rand x {}).1 "content" = Value.str apologyText
      ∧ jsGet (handleApiResponse h now rand x {}).1 "error"
          = Value.str "API compatibility issue detected"
      ∧ jsGet (handleApiResponse h now rand x {}).1 "error" ≠ Value.null := by
  have hguard : (!truthy x || !isObjectType x) = true := by
    simp only [List.mem_cons, List.not_mem_nil, or_false] at hx
    rcases hx with rfl | rfl | rfl | rfl <;> rfl
  have hres : (handleApiResponse h now rand x {}).1 = createFallbackResponse now rand := by
    simp only [handleApiResponse, validateAndNormalize, if_pos hguard]
    have hlen : (issuesOf (createFallbackResponse now rand)).length = 1 := rfl
    rw [if_pos (by rw [hlen]; exact Nat.one_pos)]
  rw [hres]
  exact ⟨rfl, rfl, fun hc => Value.noConfusion hc⟩

/-- C1 witness: the amended statement at the concrete input `null`. -/
theorem c1_theorem_witness :
    jsGet (handleApiResponse sampleHandler 2 "w" Value.null {}).1 "content"
        = Value.str apologyText
      ∧ jsGet (handleApiResponse sampleHandler 2 "w" Value.null {}).1 "error"
          = Value.str "API compatibility issue detected"
      ∧ jsGet (handleApiResponse sampleHandler 2 "w" Value.null {}).1 "error"
          ≠ Value.null :=
  c1_theorem sampleHandler 2 "w" Value.null (List.mem_cons_self _ _)

/-- C2, counterexample: the absence marker of `extractField` is the `null`
value itself, not a sentinel distinct from `null`: on `{}` (no candidate
present) and on `{ content: null }` (candidate present with stored `null`)
the call returns the identical value `null`, so the two cases are not
distinguishable. -/
theorem c2_counterexample :
    extractField sampleValidator (Value.obj []) "content" = some Value.null
      ∧ extractField sampleValidator (Value.obj [("content", Value.null)]) "content"
          = some Value.null := ⟨rfl, rfl⟩

/-- C2 (amended): when no candidate key of the synonym list is present,
`extractField` returns the JavaScript `null` value (for any field name
whose mappings lookup does not collide with an inherited member), which
coincides with the value returned for a key explicitly stored as
`null`. -/
theorem c2_theorem (v : ApiResponseValidator) (response : Value) (f : String)
    (hp : noProtoClash v f)
    (habs : ∀ k ∈ possibleKeysOf v f, hasNestedProperty response k = false) :
    extractField v response f = some Value.null := by
  rw [extractField_eq_go v response f hp]
  exact extractFieldGo_eq_null response _ habs

/-- C2 witness: the amended statement at the concrete field `id` on the
empty object. -/
theorem c2_theorem_witness :
    extractField sampleValidator (Value.obj []) "id" = some Value.null :=
  c2_theorem sampleValidator (Value.obj []) "id" (Or.inl (by decide)) (by decide)

/-- C3, counterexample: on `{ content: "x" }` with required list
`["content"]` the issues list is empty, yet the fixed optional field
`model` received its default `"unknown-model"` (its extraction came back
`null`), refuting the claimed equivalence in the direction where only an
optional field was defaulted: optional-field defaulting records no
issue. -/
theorem c3_counterexample :
    (issuesOf (validateAndNormalize sampleValidator 5 "r"
        (Value.obj [("content", Value.str "x")]) ["content"])).length = 0
      ∧ jsGet (validateAndNormalize sampleValidator 5 "r"
          (Value.obj [("content", Value.str "x")]) ["content"]) "model"
          = Value.str "unknown-model"
      ∧ extractField sampleValidator (Value.obj [("content", Value.str "x")]) "model"
          = some Value.null := ⟨rfl, rfl, rfl⟩

/-- C3 (amended): for a non-null object input (and a required list avoiding
the reserved names `_original`/`_validation` and inherited-member
collisions, where the embedding is exception-exact), the issues list of
`validateAndNormalize` is non-empty exactly when at least one required
field's extraction came back `null` (and so got its default); silent
optional-field defaulting never contributes an issue. -/
theorem c3_theorem (v : ApiResponseValidator) (now : Nat) (rand : String)
    (response : Value) (req : List String)
    (h1 : truthy response = true) (h2 : isObjectType response = true)
    (ho : "_original" ∉ req) (hv : "_validation" ∉ req)
    (_hp : ∀ f ∈ req, noProtoClash v f) :
    ((issuesOf (validateAndNormalize v now rand response req)).length > 0
      ↔ ∃ f ∈ req, isNull (extractFieldVal v response f) = true) := by
  have hg := validateAndNormalize_goodShape v now rand response req h1 h2 ho hv
  rw [issuesOf_of_goodShape _ _ _ _ hg, requiredIssues, List.length_map,
    ← List.countP_eq_length_filter]
  exact List.countP_pos_iff

/-- C3 witness: the amended equivalence at the concrete input `{}` with
required list `["content"]` (both sides hold: one issue, and `content`
extraction is `null`). -/
theorem c3_theorem_witness :
    ((issuesOf (validateAndNormalize sampleValidator 1 "w" (Value.obj [])
        ["content"])).length > 0
      ↔ ∃ f ∈ ["content"],
          isNull (extractFieldVal sampleValidator (Value.obj []) f) = true) :=
  c3_theorem sampleValidator 1 "w" (Value.obj []) ["content"] rfl rfl
    (by decide) (by decide)
    (by intro f hf
        simp only [List.mem_singleton] at hf
        subst hf
        exact Or.inl (by decide))

/-- C4, counterexample: the guard-path result of `validateAndNormalize`
(the fallback record returned for the invalid input `null`) carries no
`_original` field at all, refuting "every NormalizedResponse ... including
the guard path ... carries an `_original` field". -/
theorem c4_counterexample :
    hasNestedProperty (validateAndNormalize sampleValidator 7 "r" Value.null
      ["content"]) "_original" = false := rfl

/-- C4 (amended): every non-guard result of `validateAndNormalize` (for
required lists avoiding the reserved names) carries `_original` equal to
the unmodified raw input and `_validation.timestamp` set to the
normalization instant; the guard path instead returns
`createFallbackResponse`, which carries `_validation.timestamp` of the
instant but no `_original` field. -/
theorem c4_theorem :
    (∀ (v : ApiResponseValidator) (now : Nat) (rand : String) (response : Value)
        (req : List String), truthy response = true → isObjectType response = true →
        "_original" ∉ req → "_validation" ∉ req →
        originalOf (validateAndNormalize v now rand response req) = response
          ∧ vTimestampOf (validateAndNormalize v now rand response req)
              = Value.str (isoTimestamp now))
      ∧ (∀ (v : ApiResponseValidator) (now : Nat) (rand : String) (response : Value)
          (req : List String),
          truthy response = false ∨ isObjectType response = false →
          validateAndNormalize v now rand response req = createFallbackResponse now rand
            ∧ hasNestedProperty (createFallbackResponse now rand) "_original" = false
            ∧ vTimestampOf (createFallbackResponse now rand)
                = Value.str (isoTimestamp now)) := by
  constructor
  · intro v now rand response req h1 h2 ho hv
    have hg := validateAndNormalize_goodShape v now rand response req h1 h2 ho hv
    exact ⟨originalOf_of_goodShape _ _ _ _ hg, vTimestampOf_of_goodShape _ _ _ _ hg⟩
  · intro v now rand response req hbad
    have hguard : (!truthy response || !isObjectType response) = true := by
      rcases hbad with h | h <;> simp [h]
    exact ⟨by rw [validateAndNormalize, if_pos hguard], rfl, rfl⟩

/-- C4 witness: both parts of the amended statement at concrete inputs
(`{ content: "x" }` for the non-guard part, `9` for the guard part). -/
theorem c4_theorem_witness :
    (originalOf (validateAndNormalize sampleValidator 3 "w"
        (Value.obj [("content", Value.str "x")]) ["content"])
        = Value.obj [("content", Value.str "x")]
      ∧ vTimestampOf (validateAndNormalize sampleValidator 3 "w"
          (Value.obj [("content", Value.str "x")]) ["content"])
          = Value.str (isoTimestamp 3))
      ∧ (validateAndNormalize sampleValidator 4 "w2" (Value.num 9) ["content"]
          = createFallbackResponse 4 "w2"
        ∧ hasNestedProperty (createFallbackResponse 4 "w2") "_original" = false
        ∧ vTimestampOf (createFallbackResponse 4 "w2")
            = Value.str (isoTimestamp 4)) :=
  ⟨c4_theorem.1 sampleValidator 3 "w" _ ["content"] rfl rfl (by decide) (by decide),
   c4_theorem.2 sampleValidator 4 "w2" (Value.num 9) ["content"] (Or.inr rfl)⟩

/-- C5, counterexample: two `validateAndNormalize` calls on the same
validator instance (constructed at instant 1000 with suffix `"abc"`), made
at the distinct instants 2000 and 3000 with distinct random suffixes, both
fall back to the `id` default and receive the *same* identifier
`"fallback-1000-abc"` — not distinct fresh ones as claimed. -/
theorem c5_counterexample :
    jsGet (validateAndNormalize (mkValidator 1000 "abc") 2000 "r1" (Value.obj [])
        ["content"]) "id"
      = jsGet (validateAndNormalize (mkValidator 1000 "abc") 3000 "r2" (Value.obj [])
        ["content"]) "id" := by
  have h1 : jsGet (validateAndNormalize (mkValidator 1000 "abc") 2000 "r1"
      (Value.obj []) ["content"]) "id" = Value.str "fallback-1000-abc" := rfl
  have h2 : jsGet (validateAndNormalize (mkValidator 1000 "abc") 3000 "r2"
      (Value.obj []) ["content"]) "id" = Value.str "fallback-1000-abc" := rfl
  rw [h1, h2]

/-- C5 (amended): the `id` default is generated once, in the constructor;
every normalization on the same instance that falls back to the `id`
default receives that construction-time identifier, independent of the
instant and randomness of the call itself. -/
theorem c5_theorem (cnow : Nat) (crand : String) (now : Nat) (rand : String) :
    jsGet (validateAndNormalize (mkValidator cnow crand) now rand (Value.obj [])
        ["content"]) "id"
      = Value.str (generateFallbackId cnow crand) := rfl

lemma hasGo_iff_pathPresent : ∀ (ks : List String) (o : Value),
    hasNestedPropertyGo ks o = true ↔ PathPresent o ks
  | [], o => ⟨fun _ => PathPresent.nil o, fun _ => rfl⟩
  | k :: rest, o => by
      rw [hasNestedPropertyGo]
      by_cases hg : (truthy o && isObjectType o && jsIn k o) = true
      · rw [if_pos hg]
        simp only [Bool.and_eq_true] at hg
        constructor
        · intro h
          exact PathPresent.cons o k rest hg.1.1 hg.1.2 hg.2
            ((hasGo_iff_pathPresent rest (jsGet o k)).mp h)
        · intro h
          cases h with
          | cons _ _ _ _ _ _ hrest =>
              exact (hasGo_iff_pathPresent rest (jsGet o k)).mpr hrest
      · rw [if_neg hg]
        constructor
        · intro h; exact absurd h (by simp)
        · intro h
          cases h with
          | cons _ _ _ ht hobj hin _ =>
              exact absurd (by rw [ht, hobj, hin]; rfl : (truthy o && isObjectType o
                && jsIn k o) = true) hg

/-- C6, counterexample: dot-path presence does not require *own* keys: on
the empty object `{}` (which owns no key at all) the path `"toString"` is
reported present, because the source tests membership with the `in`
operator, which also finds keys inherited from `Object.prototype`. -/
theorem c6_counterexample :
    hasNestedProperty (Value.obj []) "toString" = true
      ∧ hasOwnKey (Value.obj []) "toString" = false := ⟨rfl, rfl⟩

/-- C6 (amended): the dot-path presence test holds exactly when every
intermediate segment resolves to a truthy value of `typeof` `'object'`
containing the next segment according to the JavaScript `in` operator —
which, unlike an own-key test, also counts keys inherited from the
prototype (witnessed by `toString` on `{}`). -/
theorem c6_theorem :
    (∀ (o : Value) (path : String),
        hasNestedProperty o path = true ↔ PathPresent o (splitPath path))
      ∧ jsIn "toString" (Value.obj []) = true
      ∧ hasOwnKey (Value.obj []) "toString" = false :=
  ⟨fun o path => hasGo_iff_pathPresent (splitPath path) o, rfl, rfl⟩

/-- C7 (confirmed): field resolution honors synonym-table order, never
source-object key order: on `{ text: "a", content: "b" }` the canonical
field `content` resolves to `"b"` under the reference table (where
`content` precedes `text`) and to `"a"` under the reversed table; in
general the candidate loop returns the value of the first candidate that
passes the presence test, never consulting later candidates. -/
theorem c7_theorem :
    extractField sampleValidator
        (Value.obj [("text", Value.str "a"), ("content", Value.str "b")]) "content"
      = some (Value.str "b")
    ∧ extractField
        { sampleValidator with
            fieldMappings :=
              [("content", ["text", "content", "message", "response", "result"])] }
        (Value.obj [("text", Value.str "a"), ("content", Value.str "b")]) "content"
      = some (Value.str "a")
    ∧ ∀ (response : Value) (ks : List String),
        extractFieldGo response ks
          = (ks.find? (fun k => hasNestedProperty response k)).elim (some Value.null)
              (fun k => getNestedProperty response k) :=
  ⟨rfl, rfl, fun response ks => extractFieldGo_eq_find response ks⟩

/-- C8 (confirmed): on one handler instance, a call whose normalization
yields at least one issue sets `errorCount` to the old count plus one and
a call with zero issues resets it to `0` (so three issue-producing calls
from a fresh handler reach 3 and a following clean call resets to 0), and
`generateErrorReport` reports `"critical"` exactly when the count strictly
exceeds the fixed threshold 5. -/
theorem c8_theorem :
    (∀ (h : VuePressApiHandler) (now : Nat) (rand : String) (x : Value)
        (opts : HandlerOptions),
        (handleApiResponse h now rand x opts).2.errorCount
          = (if (issuesOf (validateAndNormalize h.validator now rand x
                opts.requiredFields)).length > 0
             then h.errorCount + 1 else 0))
    ∧ ((handleApiResponse sampleHandler 1 "a" (Value.obj []) {}).2.errorCount = 1
       ∧ (handleApiResponse (handleApiResponse sampleHandler 1 "a" (Value.obj [])
            {}).2 2 "b" (Value.obj []) {}).2.errorCount = 2
       ∧ (handleApiResponse (handleApiResponse (handleApiResponse sampleHandler 1 "a"
            (Value.obj []) {}).2 2 "b" (Value.obj []) {}).2 3 "c"
            (Value.obj []) {}).2.errorCount = 3
       ∧ (handleApiResponse (handleApiResponse (handleApiResponse (handleApiResponse
            sampleHandler 1 "a" (Value.obj []) {}).2 2 "b" (Value.obj []) {}).2 3 "c"
            (Value.obj []) {}).2 4 "d"
            (Value.obj [("content", Value.str "ok")]) {}).2.errorCount = 0)
    ∧ ∀ (cnow : Nat) (crand : String) (c : Nat) (now : Nat),
        (jsGet (generateErrorReport
            { mkHandler cnow crand with errorCount := c } now) "status"
          = Value.str "critical" ↔ c > 5) := by
  refine ⟨?_, ⟨rfl, rfl, rfl, rfl⟩, ?_⟩
  · intro h now rand x opts
    simp only [handleApiResponse]
    by_cases hc : (issuesOf (validateAndNormalize h.validator now rand x
        opts.requiredFields)).length > 0
    · rw [if_pos hc, if_pos hc]
    · rw [if_neg hc, if_neg hc]
  · intro cnow crand c now
    have hrep : jsGet (generateErrorReport
        { mkHandler cnow crand with errorCount := c } now) "status"
        = Value.str (if c > 5 then "critical" else "normal") := rfl
    rw [hrep]
    by_cases h5 : c > 5
    · rw [if_pos h5]
      exact ⟨fun _ => h5, fun _ => rfl⟩
    · rw [if_neg h5]
      refine ⟨fun hh => ?_, fun hh => absurd hh h5⟩
      exact absurd (Value.str.inj hh) (by decide)

/-- C9 (confirmed): normalization never mutates the raw input.  In this
embedding a mutation of the response would surface as an updated value
(cf. `objSet`/`arrPush`, through which all writes of the source are
modelled); `extractField`, `hasNestedProperty` and `getNestedProperty`
perform reads only and are embedded as pure functions of the response, and
the only aliasing of the input made by `validateAndNormalize` — the
`_original` entry of its result — still holds the input value itself,
structurally unchanged. -/
theorem c9_theorem (v : ApiResponseValidator) (now : Nat) (rand : String)
    (response : Value) (req : List String)
    (h1 : truthy response = true) (h2 : isObjectType response = true)
    (ho : "_original" ∉ req) (hv : "_validation" ∉ req) :
    originalOf (validateAndNormalize v now rand response req) = response :=
  originalOf_of_goodShape _ _ _ _
    (validateAndNormalize_goodShape v now rand response req h1 h2 ho hv)

/-- C9 witness: the unchanged input readable from `_original` at the
concrete input `{ a: 1 }`. -/
theorem c9_theorem_witness :
    originalOf (validateAndNormalize sampleValidator 6 "w"
        (Value.obj [("a", Value.num 1)]) ["content"])
      = Value.obj [("a", Value.num 1)] :=
  c9_theorem sampleValidator 6 "w" _ ["content"] rfl rfl (by decide) (by decide)

/-- C10, counterexample: `extractField` is *not* total for every field
name: for the unmapped name `"toString"` the lookup
`this.fieldMappings["toString"]` finds the inherited
`Object.prototype.toString` function (truthy, so `|| [fieldName]` keeps
it), and the `for...of` loop over it raises a `TypeError` (`none`). -/
theorem c10_counterexample :
    extractField sampleValidator (Value.obj []) "toString" = none := rfl

/-- C10 (amended): the guarded traversal is fault-free — whenever
`hasNestedProperty` holds, the unguarded `getNestedProperty` succeeds, so
no traversal step dereferences `null`, `undefined` or a primitive — and
`extractField` never faults for any input value and any field name whose
mappings lookup does not collide with an inherited `Object.prototype`
member (names like `"toString"` without a registered mapping being the
exception refuting the original claim). -/
theorem c10_theorem :
    (∀ (o : Value) (path : String), hasNestedProperty o path = true →
        (getNestedProperty o path).isSome = true)
    ∧ ∀ (v : ApiResponseValidator) (response : Value) (f : String),
        noProtoClash v f → (extractField v response f).isSome = true :=
  ⟨getNestedProperty_isSome, extractField_isSome⟩

/-- C10 witness: both parts at concrete inputs — a nested path that is
present and therefore safely dereferenced, and a plain `content`
extraction on the empty object. -/
theorem c10_theorem_witness :
    (getNestedProperty (Value.obj [("data", Value.obj [("message", Value.str "x")])])
        "data.message").isSome = true
      ∧ (extractField sampleValidator (Value.obj []) "content").isSome = true :=
  ⟨c10_theorem.1 _ "data.message" rfl,
   c10_theorem.2 sampleValidator (Value.obj []) "content" (Or.inl (by decide))⟩

end ApiHandler
